import Mathlib

/-!
The gorm-unit-test repository: entity models, the pre-create hook and the data-access
scenarios.

A shallow embedding of `userModel.go`, `bookModel.go`, `walletModel.go` and of the
scenarios of `gorm_test.go`.

* Go strings are Lean `String`s, `int`/`int64` are `Int` (no arithmetic in the
  sources comes near the 64-bit bounds), slices are `List`s.
* A pointer receiver that is only read is passed as a value; a receiver that is
  written (`BeforeCreate`) is returned next to the method's result.
* A Go `error` is `GoError := Option Failure`, `none` being the nil interface value.
* `time.Now()` is the explicit argument `now`.
* The database engine is the explicit argument `engine` wherever a query condition
  outside the modelled integer comparisons has to be answered.
* `Address` and `Product` are declared outside the files at hand; the entity types
  take them as type parameters.
-/

namespace GolangGorm

/-! ## Clock readings and `time.Time.Format` -/

/-- A wall-clock reading as `time.Now()` yields it, broken into the calendar fields that
`Format` renders. `Month` is 1..12, `Day` 1..31, `Hour` 0..23, `Minute` and `Second`
0..59, `Nanosecond` 0..999999999. -/
structure Time where
  Year : Int
  Month : Nat
  Day : Nat
  Hour : Nat
  Minute : Nat
  Second : Nat
  Nanosecond : Nat
deriving DecidableEq, Repr

/-- The zero value of `time.Time`: January 1, year 1, 00:00:00.000000000. -/
def Time.zero : Time := ⟨1, 1, 1, 0, 0, 0, 0⟩

/-- The Go function `appendInt`: the decimal form of `x`, preceded by `-` when negative and
zero-padded to `width` digits. -/
def appendInt (x : Int) (width : Nat) : List Char :=
  let digits := Nat.toDigits 10 x.natAbs
  (if x < 0 then ['-'] else []) ++ (List.replicate (width - digits.length) '0' ++ digits)

/-- The Go function `isLeap`. -/
def isLeap (year : Int) : Bool :=
  year % 4 == 0 && (year % 100 != 0 || year % 400 == 0)

/-- The Go table `daysBefore`: days in a non-leap year before the month with the given
zero-based index. -/
def daysBefore (m : Nat) : Nat :=
  [0, 31, 59, 90, 120, 151, 181, 212, 243, 273, 304, 334, 365].getD m 0

/-- Day of the year, 1..366, as `Time.YearDay` computes it. -/
def Time.YearDay (t : Time) : Nat :=
  daysBefore (t.Month - 1) + (if isLeap t.Year && t.Month > 2 then 1 else 0) + t.Day

/-- The hour on the 12-hour clock (`hour % 12`, with 0 shown as 12). -/
def Time.Hour12 (t : Time) : Nat :=
  if t.Hour % 12 = 0 then 12 else t.Hour % 12

/-- The layout interpreter of `time.Time.Format` (Go standard library), for the numeric
layout elements: scanning left to right, at each position the element starting there is
recognised exactly as `nextStdChunk` does (`2006`, `2`, `01`..`06`, `002`, `15`, `1`,
`3`, `4`, `5`) and rendered as `appendFormat` does; any other character is copied. The
textual, zone and fractional elements (starting with `J`, `M`, `_`, `P`, `p`, `-`, `Z`,
`.`, `,`) are not modelled; none occurs in the layout this program uses. -/
def Time.appendFormat (t : Time) : List Char → List Char
  | '2' :: '0' :: '0' :: '6' :: rest => appendInt t.Year 4 ++ t.appendFormat rest
  | '2' :: rest => appendInt t.Day 0 ++ t.appendFormat rest
  | '0' :: '1' :: rest => appendInt t.Month 2 ++ t.appendFormat rest
  | '0' :: '2' :: rest => appendInt t.Day 2 ++ t.appendFormat rest
  | '0' :: '3' :: rest => appendInt t.Hour12 2 ++ t.appendFormat rest
  | '0' :: '4' :: rest => appendInt t.Minute 2 ++ t.appendFormat rest
  | '0' :: '5' :: rest => appendInt t.Second 2 ++ t.appendFormat rest
  | '0' :: '6' :: rest => appendInt (t.Year.natAbs % 100) 2 ++ t.appendFormat rest
  | '0' :: '0' :: '2' :: rest => appendInt t.YearDay 3 ++ t.appendFormat rest
  | '1' :: '5' :: rest => appendInt t.Hour 2 ++ t.appendFormat rest
  | '1' :: rest => appendInt t.Month 0 ++ t.appendFormat rest
  | '3' :: rest => appendInt t.Hour12 0 ++ t.appendFormat rest
  | '4' :: rest => appendInt t.Minute 0 ++ t.appendFormat rest
  | '5' :: rest => appendInt t.Second 0 ++ t.appendFormat rest
  | c :: rest => c :: t.appendFormat rest
  | [] => []

/-- The method `time.Time.Format`. -/
def Time.Format (t : Time) (layout : String) : String :=
  String.mk (t.appendFormat layout.data)

/-! ## Failures -/

/-- The failure taxonomy of the data-access layer. -/
inductive Failure where
  | MappingError
  | UnknownEntity
  | RelationshipNotDeclared
  | StaleAssociation
  | ConstraintViolation
  | PoolExhausted
  | TransactionConflict
deriving DecidableEq, Repr

/-- A Go `error` interface value; `none` is `nil`. -/
abbrev GoError := Option Failure

/-! ## Entities (`userModel.go`, `walletModel.go`, `bookModel.go`) -/

/-- The embedded struct `Name`. -/
structure Name where
  FirstName : String
  MiddleName : String
  LastName : String
deriving DecidableEq, Repr

mutual
/-- The struct `User`; `Wallet` is held by value, `Addresses` and `LikeProducts` are
slices of entities declared elsewhere. -/
inductive User (Address Product : Type) where
  | mk (ID : String) (Password : String) (Name : Name) (CreatedAt : Time) (UpdatedAt : Time)
      (Information : String) (Wallet : Wallet Address Product) (Addresses : List Address)
      (LikeProducts : List Product)
/-- The struct `Wallet`; `User` is a pointer, `none` when nil. -/
inductive Wallet (Address Product : Type) where
  | mk (ID : String) (UserId : String) (Balance : Int) (CreatedAt : Time) (UpdatedAt : Time)
      (User : Option (User Address Product))
end

/-- The struct `UserLog`. -/
structure UserLog where
  ID : Int
  UserId : String
  Action : String
  CreatedAt : Int
  UpdatedAt : Int
deriving DecidableEq, Repr

/-- The struct `GuestBook`. -/
structure GuestBook where
  ID : Int
  Name : String
  Email : String
  Message : String
  CreatedAt : Time
  UpdatedAt : Time
deriving DecidableEq, Repr

section Fields

variable {Address Product : Type}

/-- Field `User.ID`. -/
def User.ID : User Address Product → String
  | .mk id _ _ _ _ _ _ _ _ => id

/-- Field `User.Password`. -/
def User.Password : User Address Product → String
  | .mk _ p _ _ _ _ _ _ _ => p

/-- Field `User.Name`. -/
def User.Name : User Address Product → Name
  | .mk _ _ n _ _ _ _ _ _ => n

/-- Field `User.CreatedAt`. -/
def User.CreatedAt : User Address Product → Time
  | .mk _ _ _ c _ _ _ _ _ => c

/-- Field `User.UpdatedAt`. -/
def User.UpdatedAt : User Address Product → Time
  | .mk _ _ _ _ c _ _ _ _ => c

/-- Field `User.Information`. -/
def User.Information : User Address Product → String
  | .mk _ _ _ _ _ i _ _ _ => i

/-- Field `User.Wallet`. -/
def User.Wallet : User Address Product → Wallet Address Product
  | .mk _ _ _ _ _ _ w _ _ => w

/-- Field `User.Addresses`. -/
def User.Addresses : User Address Product → List Address
  | .mk _ _ _ _ _ _ _ a _ => a

/-- Field `User.LikeProducts`. -/
def User.LikeProducts : User Address Product → List Product
  | .mk _ _ _ _ _ _ _ _ l => l

/-- The assignment `u.ID = id`. -/
def User.setID (u : User Address Product) (id : String) : User Address Product :=
  match u with
  | .mk _ p n c d i w a l => .mk id p n c d i w a l

/-- Field `Wallet.ID`. -/
def Wallet.ID : Wallet Address Product → String
  | .mk id _ _ _ _ _ => id

/-- Field `Wallet.UserId`. -/
def Wallet.UserId : Wallet Address Product → String
  | .mk _ uid _ _ _ _ => uid

/-- Field `Wallet.Balance`. -/
def Wallet.Balance : Wallet Address Product → Int
  | .mk _ _ b _ _ _ => b

/-- Field `Wallet.User`. -/
def Wallet.User : Wallet Address Product → Option (User Address Product)
  | .mk _ _ _ _ _ u => u

/-- The zero value `Wallet{}`. -/
def Wallet.zero : Wallet Address Product :=
  .mk "" "" 0 Time.zero Time.zero none

/-- The zero value `User{}`. -/
def User.zero : User Address Product :=
  .mk "" "" ⟨"", "", ""⟩ Time.zero Time.zero "" Wallet.zero [] []

/-! ## Hook and table names -/

/-- The hook `User.BeforeCreate` of `userModel.go`: the receiver after the call and the
returned error. The `db` argument is not used by the body and is left out. -/
def User.BeforeCreate (now : Time) (u : User Address Product) :
    User Address Product × GoError :=
  if u.ID = "" then
    (u.setID ("user-" ++ now.Format "2006102150405"), none)
  else
    (u, none)

/-- Method `User.TableName`. -/
def User.TableName (_u : User Address Product) : String := "users"

/-- Method `Wallet.TableName`. -/
def Wallet.TableName (_w : Wallet Address Product) : String := "wallets"

end Fields

/-- Method `UserLog.TableName`. -/
def UserLog.TableName (_l : UserLog) : String := "user_logs"

/-- Method `GuestBook.TableName`. -/
def GuestBook.TableName (_g : GuestBook) : String := "guest_books"

/-- The filter text of `TestJoins` and `TestTake` (`"users.id = ?"`). -/
def TestJoins_filter : String := "users.id = ?"

/-- The raw join text of `TestJoinQuery`. -/
def TestJoinQuery_join : String := "join wallets on wallets.user_id=users.id"

/-! ## The data-access layer

The ORM library and the database engine are not part of the repository; the
definitions of this section follow the specification's contracts for them. -/

/-- Modelled from the spec: the declaration of the soft-deletable entity `Todo`, which is
not among the source files. It carries the fields the scenarios set or read (`UserId`,
`Title`, `Description`, the auto-increment key `ID`) and the soft-delete marker, a
nullable timestamp. -/
structure Todo where
  ID : Int
  UserId : String
  Title : String
  Description : String
  DeletedAt : Option Time
deriving DecidableEq, Repr

/-- Modelled from the spec: the persisted layout, one table per entity descriptor, each a
list of rows in insertion order. -/
structure Store (Address Product : Type) where
  users : List (User Address Product)
  wallets : List (Wallet Address Product)
  todos : List Todo

/-- The fields of a finished statement that the scenarios read (`Error`,
`RowsAffected`). -/
structure Result where
  Error : GoError
  RowsAffected : Int
deriving DecidableEq, Repr

section Layer

variable {Address Product : Type}

/-- The empty database. -/
def Store.empty : Store Address Product := ⟨[], [], []⟩

/-- Modelled from the spec: the pre-create callbacks of a batch, run in order before any
row is written; the first hook failure stops the batch and is returned. -/
def runBeforeCreate :
    List (Time × User Address Product) → List (User Address Product) × GoError
  | [] => ([], none)
  | (now, u) :: rest =>
    match u.BeforeCreate now with
    | (u', some e) => (u' :: rest.map Prod.snd, some e)
    | (u', none) => ((u' :: (runBeforeCreate rest).1), (runBeforeCreate rest).2)

/-- Modelled from the spec: the engine's row insertion into the `users` table. Rows are
written one after the other; a row whose primary key is already present is a
`ConstraintViolation` (duplicate primary key). The result is the new table and the
number of rows written. -/
def insertUsers (table : List (User Address Product)) :
    List (User Address Product) → Except Failure (List (User Address Product) × Nat)
  | [] => .ok (table, 0)
  | u :: rest =>
    if table.any (fun r => r.ID == u.ID) then
      .error Failure.ConstraintViolation
    else
      match insertUsers (table ++ [u]) rest with
      | .ok (table', n) => .ok (table', n + 1)
      | .error e => .error e

/-- Modelled from the spec: the create operation on users, `db.Create(&users)` (a single
entity is the one-element batch). Each entity is paired with the clock reading its hook
sees. The hooks run, then all rows are written in one statement; a failing statement
writes nothing. Returned are the store, the entities as the hooks left them and the
statement's result. Association rows and auto-managed timestamps are not written by this
model. -/
def Store.Create (s : Store Address Product) (batch : List (Time × User Address Product)) :
    Store Address Product × List (User Address Product) × Result :=
  match runBeforeCreate batch with
  | (hooked, some e) => (s, hooked, ⟨some e, 0⟩)
  | (hooked, none) =>
    match insertUsers s.users hooked with
    | .ok (table, n) => ({ s with users := table }, hooked, ⟨none, n⟩)
    | .error e => (s, hooked, ⟨some e, 0⟩)

/-! ### Units of work -/

/-- The three states of a unit of work. -/
inductive TxState where
  | opened
  | committed
  | rolledBack
deriving DecidableEq, Repr

/-- Modelled from the spec: a unit of work. `persisted` is what the database holds
outside of it, `pending` what its own statements see and change. -/
structure UnitOfWork (Address Product : Type) where
  persisted : Store Address Product
  pending : Store Address Product
  state : TxState

/-- Modelled from the spec: `begin() -> UnitOfWork` (`db.Begin()`). -/
def Store.Begin (s : Store Address Product) : UnitOfWork Address Product :=
  ⟨s, s, TxState.opened⟩

/-- Modelled from the spec: `UnitOfWork.commit()`. An open unit of work persists its
pending state and becomes committed; a finished one is left as it is. -/
def UnitOfWork.Commit (tx : UnitOfWork Address Product) : UnitOfWork Address Product :=
  match tx.state with
  | TxState.opened => ⟨tx.pending, tx.pending, TxState.committed⟩
  | _ => tx

/-- Modelled from the spec: `UnitOfWork.rollback()`. An open unit of work drops its
pending state and becomes rolled back; a finished one is left as it is. -/
def UnitOfWork.Rollback (tx : UnitOfWork Address Product) : UnitOfWork Address Product :=
  match tx.state with
  | TxState.opened => ⟨tx.persisted, tx.persisted, TxState.rolledBack⟩
  | _ => tx

/-- Modelled from the spec: a create statement issued on a unit of work (`tx.Create`); it
acts on the pending state only. -/
def UnitOfWork.Create (tx : UnitOfWork Address Product)
    (batch : List (Time × User Address Product)) :
    UnitOfWork Address Product × List (User Address Product) × Result :=
  ({ tx with pending := (tx.pending.Create batch).1 },
    (tx.pending.Create batch).2.1, (tx.pending.Create batch).2.2)

/-- Modelled from the spec: `withTransaction(fn)` (`db.Transaction`): begin, invoke the
body with the unit of work, commit on normal return, roll back when the body returns a
failure and hand that failure to the caller. Returned are the database afterwards and
the error. -/
def Store.Transaction (s : Store Address Product)
    (fc : UnitOfWork Address Product → UnitOfWork Address Product × GoError) :
    Store Address Product × GoError :=
  match fc s.Begin with
  | (tx, some e) => (tx.Rollback.persisted, some e)
  | (tx, none) => (tx.Commit.persisted, none)

/-! ### Soft delete -/

/-- Modelled from the spec: the largest key in the `todos` table (0 when empty), from
which the engine draws the next auto-increment key. -/
def maxTodoID : List Todo → Int
  | [] => 0
  | r :: rest => max r.ID (maxTodoID rest)

/-- Modelled from the spec: create on a `Todo`. An unset key (0) is replaced by the next
auto-increment key; a key already present is a `ConstraintViolation`. -/
def Store.CreateTodo (s : Store Address Product) (todo : Todo) :
    Store Address Product × Todo × Result :=
  let row : Todo := if todo.ID = 0 then { todo with ID := maxTodoID s.todos + 1 } else todo
  if s.todos.any (fun r => r.ID == row.ID) then
    (s, todo, ⟨some Failure.ConstraintViolation, 0⟩)
  else
    ({ s with todos := s.todos ++ [row] }, row, ⟨none, 1⟩)

/-- Modelled from the spec: delete on an entity with a soft-delete marker: every row with
the entity's key that is not yet marked gets the marker set to the current time; no row
is removed. -/
def Store.DeleteTodo (s : Store Address Product) (now : Time) (todo : Todo) :
    Store Address Product × Todo × Result :=
  ({ s with todos := s.todos.map (fun r =>
      if r.ID == todo.ID && r.DeletedAt.isNone then { r with DeletedAt := some now } else r) },
    { todo with DeletedAt := some now },
    ⟨none, (s.todos.filter (fun r => r.ID == todo.ID && r.DeletedAt.isNone)).length⟩)

/-- Modelled from the spec: the default `find` on `Todo`: soft-deleted rows are
excluded. -/
def Store.FindTodos (s : Store Address Product) : List Todo × Result :=
  (s.todos.filter (fun r => r.DeletedAt.isNone),
    ⟨none, (s.todos.filter (fun r => r.DeletedAt.isNone)).length⟩)

/-- Modelled from the spec: the "include deleted" `find` (`db.Unscoped().Find`). -/
def Store.UnscopedFindTodos (s : Store Address Product) : List Todo × Result :=
  (s.todos, ⟨none, s.todos.length⟩)

/-! ### Query conditions and scopes -/

/-- A bound query argument. -/
inductive Value where
  | int (i : Int)
  | str (s : String)
deriving DecidableEq, Repr

/-- One condition as the caller wrote it: the condition text and its arguments. -/
structure Condition where
  query : String
  args : List Value
deriving DecidableEq, Repr

/-- The builder call a condition came in by. -/
inductive Call where
  | Where
  | Or
  | Not
deriving DecidableEq, Repr

/-- A condition together with the builder call that added it. -/
structure Term where
  call : Call
  cond : Condition
deriving DecidableEq, Repr

/-- A query handle (`*gorm.DB`): the database it reads and the filter predicates
gathered so far, in call order. -/
structure DB (Address Product : Type) where
  store : Store Address Product
  conds : List Term

/-- The package-level handle `db`, with no condition yet. -/
def Store.db (s : Store Address Product) : DB Address Product := ⟨s, []⟩

/-- Modelled from the spec: `.where()` adds its predicate after the prior ones. -/
def DB.Where (db : DB Address Product) (query : String) (args : List Value) :
    DB Address Product :=
  { db with conds := db.conds ++ [⟨Call.Where, ⟨query, args⟩⟩] }

/-- Modelled from the spec: `.or()` adds its predicate after the prior ones, as a
disjunct. -/
def DB.Or (db : DB Address Product) (query : String) (args : List Value) :
    DB Address Product :=
  { db with conds := db.conds ++ [⟨Call.Or, ⟨query, args⟩⟩] }

/-- Modelled from the spec: `.not()` adds the negation of its predicate after the prior
ones. -/
def DB.Not (db : DB Address Product) (query : String) (args : List Value) :
    DB Address Product :=
  { db with conds := db.conds ++ [⟨Call.Not, ⟨query, args⟩⟩] }

/-- The scope `BrokeWalletBalance` of `gorm_test.go`. -/
def BrokeWalletBalance (db : DB Address Product) : DB Address Product :=
  db.Where "balance =?" [Value.int 0]

/-- The scope `SultanWalletBalance` of `gorm_test.go`. -/
def SultanWalletBalance (db : DB Address Product) : DB Address Product :=
  db.Where "balance >?" [Value.int 2000000]

/-- Modelled from the spec: `db.Scopes(funcs...)` applies the scope functions to the
handle, in order. -/
def DB.Scopes (db : DB Address Product)
    (funcs : List (DB Address Product → DB Address Product)) : DB Address Product :=
  funcs.foldl (fun d f => f d) db

/-- Modelled from the spec: comparison of two integers by an SQL operator. -/
def compareInt (op : String) (a b : Int) : Option Bool :=
  if op = "=" then some (a == b)
  else if op = "<>" then some (a != b)
  else if op = ">" then some (decide (a > b))
  else if op = ">=" then some (decide (a ≥ b))
  else if op = "<" then some (decide (a < b))
  else if op = "<=" then some (decide (a ≤ b))
  else none

/-- Modelled from the spec: the reading of the integer comparisons on the `balance`
column of `wallets`, that is of the condition texts `balance <operator> ?` (blanks
allowed around the three tokens) with one integer argument. The result is the predicate
on rows; `none` for every other condition text. -/
def Condition.compile (c : Condition) : Option (Wallet Address Product → Bool) :=
  let isName := fun ch : Char => ch.isAlphanum || ch == '_'
  let isOp := fun ch : Char => ch == '=' || ch == '<' || ch == '>'
  let isBlank := fun ch : Char => ch == ' '
  let text := c.query.data.dropWhile isBlank
  let column := String.mk (text.takeWhile isName)
  let afterColumn := (text.dropWhile isName).dropWhile isBlank
  let op := String.mk (afterColumn.takeWhile isOp)
  let afterOp := (afterColumn.dropWhile isOp).dropWhile isBlank
  match afterOp, c.args with
  | '?' :: tail, [Value.int v] =>
    if tail.all isBlank && column = "balance" then
      match compareInt op 0 v with
      | some _ => some (fun w => (compareInt op w.Balance v).getD false)
      | none => none
    else none
  | _, _ => none

/-- Modelled from the spec: the engine's answer to one condition on `wallets`: the
predicate on rows it stands for, or the failure the engine surfaces for it. The integer
comparisons on `balance` are read by `Condition.compile`; for every other condition text
the answer is that of `engine`, the database engine taken as given. -/
def Condition.read (engine : Condition → Except Failure (Wallet Address Product → Bool))
    (c : Condition) : Except Failure (Wallet Address Product → Bool) :=
  match c.compile with
  | some p => .ok p
  | none => engine c

/-- Modelled from the spec: the engine's answers to the conditions of a query, in call
order; the first failure is the statement's failure. -/
def readTerms (engine : Condition → Except Failure (Wallet Address Product → Bool)) :
    List Term → Except Failure (List (Call × (Wallet Address Product → Bool)))
  | [] => .ok []
  | t :: rest =>
    match t.cond.read engine with
    | .error e => .error e
    | .ok p =>
      match readTerms engine rest with
      | .error e => .error e
      | .ok ps => .ok ((t.call, p) :: ps)

/-- What one condition says of a row: its predicate, negated when it came in by
`.not()`. -/
def termHolds (t : Call × (Wallet Address Product → Bool)) (w : Wallet Address Product) :
    Bool :=
  match t.1 with
  | Call.Not => !(t.2 w)
  | _ => t.2 w

/-- Modelled from the spec: predicate composition, left to right. `done` is the value of
the disjuncts already closed, `cur` that of the conjunction being built: `.where()` and
`.not()` conjoin with it (AND), `.or()` closes it and opens the next disjunct at the top
level. -/
def holdsFrom (done cur : Bool) (w : Wallet Address Product) :
    List (Call × (Wallet Address Product → Bool)) → Bool
  | [] => done || cur
  | t :: rest =>
    match t.1 with
    | Call.Or => holdsFrom (done || cur) (t.2 w) w rest
    | _ => holdsFrom done (cur && termHolds t w) w rest

/-- Modelled from the spec: whether a row satisfies the conditions of a query; with no
condition every row does, and the first condition starts the first conjunction. -/
def holds (terms : List (Call × (Wallet Address Product → Bool)))
    (w : Wallet Address Product) : Bool :=
  match terms with
  | [] => true
  | t :: rest => holdsFrom false (termHolds t w) w rest

/-- Modelled from the spec: `Find(&wallets)`: the rows of `wallets` that satisfy the
conditions of the handle, in table order; when the engine fails on a condition, no row
and that failure. -/
def DB.FindWallets (engine : Condition → Except Failure (Wallet Address Product → Bool))
    (db : DB Address Product) : List (Wallet Address Product) × GoError :=
  match readTerms engine db.conds with
  | .ok terms => (db.store.wallets.filter (holds terms), none)
  | .error e => ([], some e)

/-! ## Scenarios of `gorm_test.go` -/

/-- The Go function `strconv.Itoa`. -/
def strconv.Itoa (i : Int) : String := toString i

/-- Pairs the k-th entity of a batch with the clock reading `clock k` its hook sees. -/
def withClock (clock : Nat → Time) (users : List (User Address Product)) :
    List (Time × User Address Product) :=
  users.enum.map (fun p => (clock p.1, p.2))

/-- The `for i := 2; i < 10; i++` loop of `TestBatchInsert`, from loop variable `i` and
the slice `users` built so far. -/
def TestBatchInsert.loop (i : Int) (users : List (User Address Product)) :
    List (User Address Product) :=
  if i < 10 then
    TestBatchInsert.loop (i + 1) (users ++ [User.mk (strconv.Itoa i) "rahasia"
      ⟨"User " ++ strconv.Itoa i, "", ""⟩ Time.zero Time.zero "" Wallet.zero [] []])
  else
    users
termination_by (10 - i).toNat
decreasing_by omega

/-- The slice `users` handed to `db.Create` in `TestBatchInsert`. -/
def TestBatchInsert.users : List (User Address Product) :=
  TestBatchInsert.loop 2 []

/-- The scenario `TestBatchInsert`: the database afterwards and the statement's result
(`result.Error`, `result.RowsAffected`). -/
def TestBatchInsert (clock : Nat → Time) (s : Store Address Product) :
    Store Address Product × Result :=
  ((s.Create (withClock clock TestBatchInsert.users)).1,
    (s.Create (withClock clock TestBatchInsert.users)).2.2)

/-- A `User{ID: id, Password: "rahasia", Name: Name{FirstName: "User " + id}}` literal as
the transaction scenarios write it. -/
def userLiteral (id : String) : User Address Product :=
  User.mk id "rahasia" ⟨"User " ++ id, "", ""⟩ Time.zero Time.zero "" Wallet.zero [] []

/-- The body shared by the scoped-transaction scenarios: the entities are created one
after the other and the first failing insert's error is returned at once. -/
def createInOrder :
    List (Time × User Address Product) → UnitOfWork Address Product →
      UnitOfWork Address Product × GoError
  | [], tx => (tx, none)
  | step :: rest, tx =>
    match (tx.Create [step]).2.2.Error with
    | some e => ((tx.Create [step]).1, some e)
    | none => createInOrder rest (tx.Create [step]).1

/-- The function passed to `db.Transaction` in `TestTransactionError`; `now₁`, `now₂` are
the clock readings of its two create statements. -/
def TestTransactionError.body (now₁ now₂ : Time) (tx : UnitOfWork Address Product) :
    UnitOfWork Address Product × GoError :=
  match (tx.Create [(now₁, userLiteral "13")]).2.2.Error with
  | some err => ((tx.Create [(now₁, userLiteral "13")]).1, some err)
  | none =>
    let tx₁ := (tx.Create [(now₁, userLiteral "13")]).1
    match (tx₁.Create [(now₂, userLiteral "11")]).2.2.Error with
    | some err => ((tx₁.Create [(now₂, userLiteral "11")]).1, some err)
    | none => ((tx₁.Create [(now₂, userLiteral "11")]).1, none)

/-- The scenario `TestTransactionError`: the database afterwards and the `err` the test
asserts on. -/
def TestTransactionError (now₁ now₂ : Time) (s : Store Address Product) :
    Store Address Product × GoError :=
  s.Transaction (TestTransactionError.body now₁ now₂)

/-- The scenario `TestManuakTransactionSuccess`: the unit of work once the deferred
`tx.Rollback()` has run. The `assert.Nil` calls record a failure and let the test go on. -/
def TestManuakTransactionSuccess (now₁ now₂ : Time) (s : Store Address Product) :
    UnitOfWork Address Product :=
  let tx := s.Begin
  let tx₁ := (tx.Create [(now₁, userLiteral "13")]).1
  let r₂ := tx₁.Create [(now₂, userLiteral "14")]
  let tx₂ := if r₂.2.2.Error = none then r₂.1.Commit else r₂.1
  tx₂.Rollback

/-- The scenario `TestManuakTransactionError`: the unit of work once the deferred
`tx.Rollback()` has run. -/
def TestManuakTransactionError (now₁ now₂ : Time) (s : Store Address Product) :
    UnitOfWork Address Product :=
  let tx := s.Begin
  let tx₁ := (tx.Create [(now₁, userLiteral "15")]).1
  let r₂ := tx₁.Create [(now₂, userLiteral "14")]
  let tx₂ := if r₂.2.2.Error = none then r₂.1.Commit else r₂.1
  tx₂.Rollback

/-- The scenario `TestSoftDelete`: the database afterwards, the errors of the three
statements and the slice `todos` the final `db.Find` filled. -/
def TestSoftDelete (now : Time) (s : Store Address Product) :
    Store Address Product × List GoError × List Todo :=
  let todo : Todo := ⟨0, "1", "test", "desc test", none⟩
  let created := s.CreateTodo todo
  let deleted := created.1.DeleteTodo now created.2.1
  let found := deleted.1.FindTodos
  (deleted.1, [created.2.2.Error, deleted.2.2.Error, found.2.Error], found.1)

/-- The scenario `TestScope`: the results of its two `Find` calls. -/
def TestScope (engine : Condition → Except Failure (Wallet Address Product → Bool))
    (s : Store Address Product) :
    (List (Wallet Address Product) × GoError) × (List (Wallet Address Product) × GoError) :=
  ((s.db.Scopes [BrokeWalletBalance]).FindWallets engine,
    (s.db.Scopes [SultanWalletBalance]).FindWallets engine)

/-- How a test function ends. -/
inductive Outcome where
  | pass
  | fail
  | panic
deriving DecidableEq, Repr

/-- The message of a failure (`Error()` on a non-nil `error`). -/
def Failure.Error : Failure → String
  | .MappingError => "MappingError"
  | .UnknownEntity => "UnknownEntity"
  | .RelationshipNotDeclared => "RelationshipNotDeclared"
  | .StaleAssociation => "StaleAssociation"
  | .ConstraintViolation => "ConstraintViolation"
  | .PoolExhausted => "PoolExhausted"
  | .TransactionConflict => "TransactionConflict"

/-- The method call `err.Error()` on an `error` interface value: the message, or `none`
for the run-time panic of calling a method on the nil interface. -/
def GoError.Error : GoError → Option String
  | none => none
  | some e => some e.Error

/-- The check `assert.Nil(t, object)` for an `object` of type `string`: a string is not
the nil interface and its kind cannot hold nil, so the assertion fails. -/
def assert.Nil.string (_object : String) : Bool := false

/-- The scenario `TestAssociationReplace`, for the function `fc` handed to
`db.Transaction`: `.Error()` is called on the returned error and the resulting string is
checked with `assert.Nil`. -/
def TestAssociationReplace (s : Store Address Product)
    (fc : UnitOfWork Address Product → UnitOfWork Address Product × GoError) : Outcome :=
  match GoError.Error (s.Transaction fc).2 with
  | none => Outcome.panic
  | some err => if assert.Nil.string err then Outcome.pass else Outcome.fail

end Layer

/-! ## Field tags and column mapping -/

/-- The parts of a `gorm` struct tag, which are separated by `;`. -/
def tagParts : List Char → List (List Char)
  | [] => [[]]
  | c :: rest =>
    if c = ';' then [] :: tagParts rest
    else
      match tagParts rest with
      | [] => [[c]]
      | part :: parts => (c :: part) :: parts

/-- The key of a tag part (the text before the first `:`, in upper case, as the ORM
normalises it) and its value (the text after it). -/
def tagSetting (part : List Char) : String × String :=
  (String.mk ((part.takeWhile (fun c => c != ':')).map Char.toUpper),
    String.mk ((part.dropWhile (fun c => c != ':')).drop 1))

/-- The column a field is tagged with: the value of the `column` setting of its tag, if
the tag has one. -/
def columnOf (tag : String) : Option String :=
  (((tagParts tag.data).map tagSetting).find? (fun kv => kv.1 == "COLUMN")).map Prod.snd

/-- Whether a tag carries the `embedded` setting. -/
def isEmbedded (tag : String) : Bool :=
  ((tagParts tag.data).map tagSetting).any (fun kv => kv.1 == "EMBEDDED")

/-- The fields of `Name` with their `gorm` tags, as declared in `userModel.go`. -/
def Name.fields : List (String × String) :=
  [("FirstName", "column:first_name"),
   ("MiddleName", "column:middle_name"),
   ("LastName", "column:last_name")]

/-- The fields of `User` with their `gorm` tags, as declared in `userModel.go`. -/
def User.fields : List (String × String) :=
  [("ID", "primaryKey;column:id;<-:create"),
   ("Password", "column:password"),
   ("Name", "embedded"),
   ("CreatedAt", "column:created_at;autoCreatedTime;<-:create"),
   ("UpdatedAt", "column:created_at;autoCreatedTime;autoUpdatedTime"),
   ("Information", "-"),
   ("Wallet", "foreignKey:user_id;references:id"),
   ("Addresses", "foreignKey:user_id;references:id"),
   ("LikeProducts", "many2many:user_like_product;foreignKey:id;joinForeignKey:user_id;references:id;joinReferences:product_id")]

/-- The fields of `UserLog` with their `gorm` tags, as declared in `userModel.go`. -/
def UserLog.fields : List (String × String) :=
  [("ID", "primaryKey;column:id;autoIncrement"),
   ("UserId", "column:user_id"),
   ("Action", "column:action"),
   ("CreatedAt", "column:created_at;autoCreatedTime:milli"),
   ("UpdatedAt", "column:created_at;autoCreatedTime:milli;autoUpdatedTime:milli")]

/-- The fields of `GuestBook` with their `gorm` tags, as declared in `bookModel.go`. -/
def GuestBook.fields : List (String × String) :=
  [("ID", "primary_key;column:id;autoIncrement"),
   ("Name", "column:name"),
   ("Email", "column:email"),
   ("Message", "column:message"),
   ("CreatedAt", "column:created_at;autoCreatedTime"),
   ("UpdatedAt", "column:created_at;autoCreatedTime;autoUpdatedTime")]

/-- The fields of `Wallet` with their `gorm` tags, as declared in `walletModel.go`. -/
def Wallet.fields : List (String × String) :=
  [("ID", "primary_key;column:id"),
   ("UserId", "column:user_id"),
   ("Balance", "column:balance"),
   ("CreatedAt", "column:created_at;autoCreatedTime"),
   ("UpdatedAt", "column:created_at;autoCreatedTime;autoUpdatedTime"),
   ("User", "foreignKey:user_id;references:id")]

/-- The field-to-column mapping of an entity: every field tagged with a column, paired
with that column, in declaration order; a field tagged `embedded` contributes the mapping
of the embedded struct, whose fields are `embedded`. Fields without a column setting
(the ignored field `-` and the associations) are not persisted as columns. -/
def columnMapping (embedded : List (String × String)) (fields : List (String × String)) :
    List (String × String) :=
  fields.flatMap (fun f =>
    if isEmbedded f.2 then
      embedded.filterMap (fun e => (columnOf e.2).map (fun c => (e.1, c)))
    else
      match columnOf f.2 with
      | some c => [(f.1, c)]
      | none => [])

/-- The columns of an entity, one entry per persisted field. -/
def columnsOf (embedded : List (String × String)) (fields : List (String × String)) :
    List String :=
  (columnMapping embedded fields).map Prod.snd

section HookTheorems

variable {Address Product : Type}

/-- The layout `2006102150405` read element by element: four-digit year, month without
padding, then day, hour, minute and second on two digits each. -/
theorem Format_layout (t : Time) :
    t.Format "2006102150405" =
      String.mk (appendInt t.Year 4 ++ (appendInt t.Month 0 ++ (appendInt t.Day 2 ++
        (appendInt t.Hour 2 ++ (appendInt t.Minute 2 ++ appendInt t.Second 2))))) := by
  have h : t.Format "2006102150405" =
      String.mk (appendInt t.Year 4 ++ (appendInt t.Month 0 ++ (appendInt t.Day 2 ++
        (appendInt t.Hour 2 ++ (appendInt t.Minute 2 ++ (appendInt t.Second 2 ++ [])))))) := rfl
  rw [h, List.append_nil]

theorem setID_ID (u : User Address Product) (id : String) : (u.setID id).ID = id := by
  cases u; rfl

theorem prefixed_ne_empty (s : String) : "user-" ++ s ≠ "" := by
  intro h
  have h2 := congrArg String.length h
  rw [String.length_append] at h2
  have h3 : "user-".length = 5 := by decide
  have h4 : "".length = 0 := by decide
  omega

theorem BeforeCreate_of_empty (now : Time) (u : User Address Product) (h : u.ID = "") :
    u.BeforeCreate now = (u.setID ("user-" ++ now.Format "2006102150405"), none) := by
  unfold User.BeforeCreate
  rw [if_pos h]

theorem BeforeCreate_of_nonempty (now : Time) (u : User Address Product) (h : u.ID ≠ "") :
    u.BeforeCreate now = (u, none) := by
  unfold User.BeforeCreate
  rw [if_neg h]

/-- C1: for every user whose ID is the empty string, `BeforeCreate` returns no error and
leaves a non-empty ID, namely `user-` followed by the clock reading rendered with the
layout `2006102150405` (year on four digits, month unpadded, day, hour, minute and second
on two digits). -/
theorem BeforeCreate_generates_ID (now : Time) (u : User Address Product) (h : u.ID = "") :
    (u.BeforeCreate now).2 = none ∧
    (u.BeforeCreate now).1.ID ≠ "" ∧
    (u.BeforeCreate now).1.ID = "user-" ++ now.Format "2006102150405" ∧
    now.Format "2006102150405" =
      String.mk (appendInt now.Year 4 ++ (appendInt now.Month 0 ++ (appendInt now.Day 2 ++
        (appendInt now.Hour 2 ++ (appendInt now.Minute 2 ++ appendInt now.Second 2))))) := by
  rw [BeforeCreate_of_empty now u h]
  refine ⟨rfl, ?_, setID_ID _ _, Format_layout now⟩
  show (u.setID ("user-" ++ now.Format "2006102150405")).ID ≠ ""
  rw [setID_ID]
  exact prefixed_ne_empty _

/-- Witness for C1: the user of `TestHooks` (no ID, password `Rahasia`, first name
`User 100`) at 2024-12-17 19:05:01 receives the ID `user-20241217190501`. -/
theorem BeforeCreate_generates_ID_witness :
    (User.mk "" "Rahasia" ⟨"User 100", "", ""⟩ Time.zero Time.zero "" Wallet.zero [] [] :
      User Unit Unit).ID = "" ∧
    ((User.mk "" "Rahasia" ⟨"User 100", "", ""⟩ Time.zero Time.zero "" Wallet.zero [] [] :
      User Unit Unit).BeforeCreate ⟨2024, 12, 17, 19, 5, 1, 250⟩).1.ID = "user-20241217190501" :=
  ⟨rfl, ((BeforeCreate_generates_ID ⟨2024, 12, 17, 19, 5, 1, 250⟩
    (User.mk "" "Rahasia" ⟨"User 100", "", ""⟩ Time.zero Time.zero "" Wallet.zero [] [])
    rfl).2.2.1).trans (by decide)⟩

/-- C2: for every user whose ID is non-empty, `BeforeCreate` returns no error and leaves
the ID, and with it the whole user, exactly as the caller supplied it. -/
theorem BeforeCreate_keeps_given_ID (now : Time) (u : User Address Product) (h : u.ID ≠ "") :
    (u.BeforeCreate now).2 = none ∧
    (u.BeforeCreate now).1.ID = u.ID ∧
    (u.BeforeCreate now).1 = u := by
  rw [BeforeCreate_of_nonempty now u h]
  exact ⟨rfl, rfl, rfl⟩

/-- Witness for C2: the user with the caller-chosen key `5` of `TestBatchInsert` keeps
that key. -/
theorem BeforeCreate_keeps_given_ID_witness :
    (userLiteral "5" : User Unit Unit).ID ≠ "" ∧
    ((userLiteral "5" : User Unit Unit).BeforeCreate ⟨2024, 12, 17, 19, 5, 1, 0⟩).1.ID = "5" :=
  ⟨by decide, (BeforeCreate_keeps_given_ID ⟨2024, 12, 17, 19, 5, 1, 0⟩ (userLiteral "5")
    (by decide)).2.1⟩

/-- C3: whatever the receiver holds, `TableName` returns the declared name: `users`,
`user_logs`, `guest_books`, `wallets`; the filter text `users.id = ?` and the raw join
text `join wallets on wallets.user_id=users.id` of the tests are built on these names. -/
theorem TableName_fixed (u : User Address Product) (l : UserLog) (g : GuestBook)
    (w : Wallet Address Product) :
    u.TableName = "users" ∧ l.TableName = "user_logs" ∧
    g.TableName = "guest_books" ∧ w.TableName = "wallets" ∧
    TestJoins_filter = u.TableName ++ ".id = ?" ∧
    TestJoinQuery_join =
      "join " ++ w.TableName ++ " on " ++ w.TableName ++ ".user_id=" ++ u.TableName ++ ".id" := by
  refine ⟨rfl, rfl, rfl, rfl, ?_, ?_⟩
  · show "users.id = ?" = "users" ++ ".id = ?"
    decide
  · show "join wallets on wallets.user_id=users.id" =
      "join " ++ "wallets" ++ " on " ++ "wallets" ++ ".user_id=" ++ "users" ++ ".id"
    decide

/-- C10: the generated ID depends on the clock reading only, and only down to the second:
two users with empty IDs, whatever their other fields, hooked at readings that agree in
year, month, day, hour, minute and second (the nanoseconds may differ) get the same ID. -/
theorem BeforeCreate_ID_clock_second_only (t₁ t₂ : Time) (u₁ u₂ : User Address Product)
    (h₁ : u₁.ID = "") (h₂ : u₂.ID = "")
    (hYear : t₁.Year = t₂.Year) (hMonth : t₁.Month = t₂.Month) (hDay : t₁.Day = t₂.Day)
    (hHour : t₁.Hour = t₂.Hour) (hMinute : t₁.Minute = t₂.Minute)
    (hSecond : t₁.Second = t₂.Second) :
    (u₁.BeforeCreate t₁).1.ID = (u₂.BeforeCreate t₂).1.ID := by
  rw [BeforeCreate_of_empty t₁ u₁ h₁, BeforeCreate_of_empty t₂ u₂ h₂]
  show (u₁.setID _).ID = (u₂.setID _).ID
  rw [setID_ID, setID_ID, Format_layout, Format_layout, hYear, hMonth, hDay, hHour, hMinute,
    hSecond]

end HookTheorems

section CreateTheorems

variable {Address Product : Type}

theorem runBeforeCreate_length (batch : List (Time × User Address Product)) :
    (runBeforeCreate batch).1.length = batch.length := by
  induction batch with
  | nil => rfl
  | cons step rest ih =>
    obtain ⟨now, u⟩ := step
    unfold runBeforeCreate
    rcases hb : u.BeforeCreate now with ⟨u', _ | e⟩
    · simp [ih]
    · simp

theorem runBeforeCreate_given_IDs (batch : List (Time × User Address Product))
    (h : ∀ p ∈ batch, p.2.ID ≠ "") :
    runBeforeCreate batch = (batch.map Prod.snd, none) := by
  induction batch with
  | nil => rfl
  | cons step rest ih =>
    obtain ⟨now, u⟩ := step
    have hu : u.ID ≠ "" := h (now, u) (List.mem_cons_self _ _)
    have hrest := ih (fun p hp => h p (List.mem_cons_of_mem _ hp))
    unfold runBeforeCreate
    rw [BeforeCreate_of_nonempty now u hu, hrest]
    rfl

theorem insertUsers_count (batch : List (User Address Product)) :
    ∀ (table table' : List (User Address Product)) (n : Nat),
      insertUsers table batch = .ok (table', n) →
        n = batch.length ∧ table'.length = table.length + batch.length := by
  induction batch with
  | nil =>
    intro table table' n h
    simp [insertUsers] at h
    obtain ⟨h1, h2⟩ := h
    subst h1; subst h2
    simp
  | cons u rest ih =>
    intro table table' n h
    unfold insertUsers at h
    split at h
    · cases h
    · split at h
      · rename_i t m heq
        have := ih _ _ _ heq
        simp at h
        obtain ⟨h1, h2⟩ := h
        subst h1; subst h2
        simp at this ⊢
        omega
      · cases h

theorem insertUsers_fresh (batch : List (User Address Product)) :
    ∀ table : List (User Address Product),
      (∀ r ∈ table, ∀ u ∈ batch, r.ID ≠ u.ID) → (batch.map User.ID).Nodup →
        insertUsers table batch = .ok (table ++ batch, batch.length) := by
  induction batch with
  | nil => intro table _ _; simp [insertUsers]
  | cons u rest ih =>
    intro table hfresh hnodup
    have hno : table.any (fun r => r.ID == u.ID) = false := by
      rw [List.any_eq_false]
      intro r hr
      simpa using hfresh r hr u (List.mem_cons_self _ _)
    rw [List.map_cons, List.nodup_cons] at hnodup
    have hrest := ih (table ++ [u]) (by
      intro r hr v hv
      rcases List.mem_append.mp hr with h | h
      · exact hfresh r h v (List.mem_cons_of_mem _ hv)
      · rw [List.mem_singleton] at h
        subst h
        intro heq
        exact hnodup.1 (heq ▸ List.mem_map_of_mem User.ID hv)) hnodup.2
    unfold insertUsers
    simp [hno, hrest]

theorem TestBatchInsert_users_eq :
    (TestBatchInsert.users : List (User Address Product)) =
      [userLiteral "2", userLiteral "3", userLiteral "4", userLiteral "5", userLiteral "6",
        userLiteral "7", userLiteral "8", userLiteral "9"] := by
  unfold TestBatchInsert.users
  simp [TestBatchInsert.loop]
  refine ⟨?_, ?_, ?_, ?_, ?_, ?_, ?_, ?_⟩ <;> rfl

end CreateTheorems

section BatchTheorems

variable {Address Product : Type}

theorem Create_rows_affected (s : Store Address Product)
    (batch : List (Time × User Address Product)) (h : (s.Create batch).2.2.Error = none) :
    (s.Create batch).2.2.RowsAffected = batch.length ∧
    (s.Create batch).1.users.length = s.users.length + batch.length := by
  unfold Store.Create at h ⊢
  have hlen := runBeforeCreate_length batch
  rcases hr : runBeforeCreate batch with ⟨hooked, _ | e⟩
  · rw [hr] at h hlen
    simp only at h hlen ⊢
    rcases hi : insertUsers s.users hooked with e | ⟨table, n⟩
    · rw [hi] at h
      simp at h
    · have := insertUsers_count hooked s.users table n hi
      simp only
      rw [← hlen]
      exact ⟨by rw [this.1], this.2⟩
  · rw [hr] at h
    simp at h

theorem withClock_snd (clock : Nat → Time) (users : List (User Address Product)) :
    (withClock clock users).map Prod.snd = users := by
  unfold withClock
  rw [List.map_map]
  have : (Prod.snd ∘ fun p : Nat × User Address Product => (clock p.1, p.2)) = Prod.snd := rfl
  rw [this, List.enum_map_snd]

theorem Create_given_fresh (s : Store Address Product)
    (batch : List (Time × User Address Product))
    (hgiven : ∀ p ∈ batch, p.2.ID ≠ "")
    (hfresh : ∀ r ∈ s.users, ∀ u ∈ batch.map Prod.snd, r.ID ≠ u.ID)
    (hnodup : ((batch.map Prod.snd).map User.ID).Nodup) :
    s.Create batch =
      ({ s with users := s.users ++ batch.map Prod.snd }, batch.map Prod.snd,
        ⟨none, batch.length⟩) := by
  unfold Store.Create
  rw [runBeforeCreate_given_IDs batch hgiven]
  simp only
  rw [insertUsers_fresh _ _ hfresh hnodup]
  simp

/-- C4: a create call that inserts a batch reports as many affected rows as the batch has
entities (and the table grows by that many rows); the batch of `TestBatchInsert` has
exactly 8 users, with the pairwise distinct IDs `2` to `9`, password `rahasia` and first
name `User <id>`; on a database holding none of these keys its create call returns no
error, reports exactly 8 affected rows and appends the 8 rows. -/
theorem batch_insert_rows_affected (clock : Nat → Time) (s : Store Address Product)
    (batch : List (Time × User Address Product)) :
    ((s.Create batch).2.2.Error = none →
      (s.Create batch).2.2.RowsAffected = batch.length ∧
      (s.Create batch).1.users.length = s.users.length + batch.length) ∧
    ((TestBatchInsert.users : List (User Address Product)).length = 8 ∧
      (TestBatchInsert.users : List (User Address Product)).map User.ID =
        ["2", "3", "4", "5", "6", "7", "8", "9"] ∧
      ((TestBatchInsert.users : List (User Address Product)).map User.ID).Nodup ∧
      ∀ u ∈ (TestBatchInsert.users : List (User Address Product)),
        u.Password = "rahasia" ∧ u.Name.FirstName = "User " ++ u.ID) ∧
    ((∀ r ∈ s.users, r.ID ∉ ["2", "3", "4", "5", "6", "7", "8", "9"]) →
      (TestBatchInsert clock s).2 = ⟨none, 8⟩ ∧
      (TestBatchInsert clock s).1.users = s.users ++ TestBatchInsert.users) := by
  have hids : (TestBatchInsert.users : List (User Address Product)).map User.ID =
      ["2", "3", "4", "5", "6", "7", "8", "9"] := by
    rw [TestBatchInsert_users_eq]; rfl
  refine ⟨Create_rows_affected s batch, ⟨?_, hids, ?_, ?_⟩, ?_⟩
  · rw [TestBatchInsert_users_eq]; rfl
  · rw [hids]; decide
  · intro u hu
    rw [TestBatchInsert_users_eq] at hu
    simp only [List.mem_cons, List.mem_singleton, List.not_mem_nil, or_false] at hu
    rcases hu with h | h | h | h | h | h | h | h <;> subst h <;> exact ⟨rfl, rfl⟩
  · intro hfresh
    have hc := Create_given_fresh s (withClock clock TestBatchInsert.users)
      (by
        intro p hp
        have hmem : p.2 ∈ (withClock clock TestBatchInsert.users).map Prod.snd :=
          List.mem_map_of_mem Prod.snd hp
        rw [withClock_snd] at hmem
        have hid : p.2.ID ∈ ["2", "3", "4", "5", "6", "7", "8", "9"] := by
          rw [← hids]; exact List.mem_map_of_mem User.ID hmem
        intro hempty
        rw [hempty] at hid
        revert hid
        decide)
      (by
        rw [withClock_snd]
        intro r hr u hu heq
        apply hfresh r hr
        rw [heq, ← hids]
        exact List.mem_map_of_mem User.ID hu)
      (by rw [withClock_snd, hids]; decide)
    unfold TestBatchInsert
    rw [hc, withClock_snd]
    refine ⟨?_, rfl⟩
    have hl : (withClock clock (TestBatchInsert.users : List (User Address Product))).length = 8 := by
      rw [← List.length_map (withClock clock TestBatchInsert.users) Prod.snd, withClock_snd,
        TestBatchInsert_users_eq]
      rfl
    simp only [hl]
    rfl

/-- Witness for C4: on the database left by `TestCreateUser` (one user, key `1`) the
batch of `TestBatchInsert` is inserted without error and 8 rows are reported. -/
theorem batch_insert_rows_affected_witness :
    (TestBatchInsert (fun k => ⟨2024, 12, 17, 19, 5, 1, k⟩)
      (⟨[User.mk "1" "knok" ⟨"Budi", "Abdurahman", "Fatir"⟩ Time.zero Time.zero
        "Ini di ignore" Wallet.zero [] []], [], []⟩ : Store Unit Unit)).2 = ⟨none, 8⟩ :=
  ((batch_insert_rows_affected (fun k => ⟨2024, 12, 17, 19, 5, 1, k⟩)
    (⟨[User.mk "1" "knok" ⟨"Budi", "Abdurahman", "Fatir"⟩ Time.zero Time.zero
      "Ini di ignore" Wallet.zero [] []], [], []⟩ : Store Unit Unit) []).2.2
    (by
      intro r hr
      rw [List.mem_singleton] at hr
      subst hr
      decide)).1

end BatchTheorems

section TransactionTheorems

variable {Address Product : Type}

theorem createInOrder_frame (steps : List (Time × User Address Product)) :
    ∀ tx : UnitOfWork Address Product,
      (createInOrder steps tx).1.state = tx.state ∧
      (createInOrder steps tx).1.persisted = tx.persisted := by
  induction steps with
  | nil => intro tx; exact ⟨rfl, rfl⟩
  | cons step rest ih =>
    intro tx
    unfold createInOrder
    split
    · exact ⟨rfl, rfl⟩
    · exact ih _

theorem Transaction_of_failure (s : Store Address Product)
    (fc : UnitOfWork Address Product → UnitOfWork Address Product × GoError) (e : Failure)
    (herr : (fc s.Begin).2 = some e) (hopen : (fc s.Begin).1.state = TxState.opened)
    (hkeep : (fc s.Begin).1.persisted = s) :
    s.Transaction fc = (s, some e) := by
  unfold Store.Transaction
  rcases hfc : fc s.Begin with ⟨tx, err⟩
  rw [hfc] at herr hopen hkeep
  simp only at herr hopen hkeep
  subst herr
  simp only [UnitOfWork.Rollback, hopen, hkeep]

theorem body_eq_createInOrder (now₁ now₂ : Time) (tx : UnitOfWork Address Product) :
    TestTransactionError.body now₁ now₂ tx =
      createInOrder [(now₁, userLiteral "13"), (now₂, userLiteral "11")] tx := by
  unfold TestTransactionError.body
  simp only [createInOrder]

theorem Create_single_fresh (s : Store Address Product) (now : Time)
    (u : User Address Product) (hgiven : u.ID ≠ "") (hfresh : ∀ r ∈ s.users, r.ID ≠ u.ID) :
    s.Create [(now, u)] = ({ s with users := s.users ++ [u] }, [u], ⟨none, 1⟩) := by
  have h := Create_given_fresh s [(now, u)]
    (by intro p hp; rw [List.mem_singleton] at hp; subst hp; exact hgiven)
    (by
      intro r hr v hv
      simp only [List.map_cons, List.map_nil, List.mem_singleton] at hv
      subst hv
      exact hfresh r hr)
    (by simp)
  simpa using h

theorem Create_single_duplicate (s : Store Address Product) (now : Time)
    (u : User Address Product) (hgiven : u.ID ≠ "") (hdup : ∃ r ∈ s.users, r.ID = u.ID) :
    s.Create [(now, u)] = (s, [u], ⟨some Failure.ConstraintViolation, 0⟩) := by
  have hany : s.users.any (fun r => r.ID == u.ID) = true := by
    rw [List.any_eq_true]
    obtain ⟨r, hr, hid⟩ := hdup
    exact ⟨r, hr, by simpa using hid⟩
  unfold Store.Create
  rw [runBeforeCreate_given_IDs [(now, u)]
    (by intro p hp; rw [List.mem_singleton] at hp; subst hp; exact hgiven)]
  simp [insertUsers, hany]

/-- C5: a scoped transaction whose body creates entities one after the other and returns
the first failing insert's error hands that (non-nil) error to the caller and leaves the
database exactly as it was before the transaction began. `TestTransactionError` has such
a body; on a database that holds key `11` but not `13` its first insert adds user `13`
to the pending state, the second fails with a constraint violation, and the database
afterwards equals the one before, the row of user `13` rolled back. -/
theorem failed_transaction_rolls_back (now₁ now₂ : Time) (s : Store Address Product)
    (steps : List (Time × User Address Product)) :
    (∀ e, (createInOrder steps s.Begin).2 = some e →
      s.Transaction (createInOrder steps) = (s, some e)) ∧
    (∀ tx : UnitOfWork Address Product, TestTransactionError.body now₁ now₂ tx =
      createInOrder [(now₁, userLiteral "13"), (now₂, userLiteral "11")] tx) ∧
    ((∃ r ∈ s.users, r.ID = "11") → (∀ r ∈ s.users, r.ID ≠ "13") →
      (s.Begin.Create [(now₁, userLiteral "13")]).1.pending.users =
        s.users ++ [userLiteral "13"] ∧
      (TestTransactionError.body now₁ now₂ s.Begin).2 = some Failure.ConstraintViolation ∧
      TestTransactionError now₁ now₂ s = (s, some Failure.ConstraintViolation)) := by
  refine ⟨?_, body_eq_createInOrder now₁ now₂, ?_⟩
  · intro e he
    have hf := createInOrder_frame steps s.Begin
    exact Transaction_of_failure s _ e he hf.1 hf.2
  · intro hdup hfresh
    have h13 : (userLiteral "13" : User Address Product).ID ≠ "" := by
      show "13" ≠ ""; decide
    have h11 : (userLiteral "11" : User Address Product).ID ≠ "" := by
      show "11" ≠ ""; decide
    have hc1 := Create_single_fresh s now₁ (userLiteral "13") h13 hfresh
    have hc2 := Create_single_duplicate
      ({ s with users := s.users ++ [userLiteral "13"] } : Store Address Product) now₂
      (userLiteral "11") h11 (by
        obtain ⟨r, hr, hid⟩ := hdup
        exact ⟨r, List.mem_append_left _ hr, hid⟩)
    have hbody : (TestTransactionError.body now₁ now₂ s.Begin).2 =
        some Failure.ConstraintViolation := by
      rw [body_eq_createInOrder]
      simp only [createInOrder, UnitOfWork.Create, Store.Begin, hc1, hc2]
    refine ⟨?_, hbody, ?_⟩
    · simp only [UnitOfWork.Create, Store.Begin, hc1]
    · unfold TestTransactionError
      have hf := createInOrder_frame [(now₁, userLiteral "13"), (now₂, userLiteral "11")]
        s.Begin
      have hfun : (TestTransactionError.body now₁ now₂ :
          UnitOfWork Address Product → UnitOfWork Address Product × GoError) =
          createInOrder [(now₁, userLiteral "13"), (now₂, userLiteral "11")] :=
        funext (body_eq_createInOrder now₁ now₂)
      rw [hfun] at hbody ⊢
      exact Transaction_of_failure s _ _ hbody hf.1 hf.2

/-- Witness for C5: on a database holding only user `11`, `TestTransactionError` returns
a constraint violation and leaves that database unchanged. -/
theorem failed_transaction_rolls_back_witness :
    TestTransactionError ⟨2024, 12, 17, 19, 5, 1, 0⟩ ⟨2024, 12, 17, 19, 5, 2, 0⟩
      (⟨[userLiteral "11"], [], []⟩ : Store Unit Unit) =
      (⟨[userLiteral "11"], [], []⟩, some Failure.ConstraintViolation) :=
  ((failed_transaction_rolls_back ⟨2024, 12, 17, 19, 5, 1, 0⟩ ⟨2024, 12, 17, 19, 5, 2, 0⟩
    (⟨[userLiteral "11"], [], []⟩ : Store Unit Unit) []).2.2
    ⟨userLiteral "11", List.mem_singleton.mpr rfl, rfl⟩
    (by
      intro r hr
      rw [List.mem_singleton] at hr
      subst hr
      decide)).2.2

end TransactionTheorems

section UnitOfWorkTheorems

variable {Address Product : Type}

theorem Commit_of_open (tx : UnitOfWork Address Product) (h : tx.state = TxState.opened) :
    tx.Commit = ⟨tx.pending, tx.pending, TxState.committed⟩ := by
  unfold UnitOfWork.Commit
  rw [h]

theorem Rollback_of_open (tx : UnitOfWork Address Product) (h : tx.state = TxState.opened) :
    tx.Rollback = ⟨tx.persisted, tx.persisted, TxState.rolledBack⟩ := by
  unfold UnitOfWork.Rollback
  rw [h]

theorem finished_absorbing (tx : UnitOfWork Address Product) (h : tx.state ≠ TxState.opened) :
    tx.Commit = tx ∧ tx.Rollback = tx := by
  unfold UnitOfWork.Commit UnitOfWork.Rollback
  cases hs : tx.state with
  | opened => exact absurd hs h
  | committed => exact ⟨rfl, rfl⟩
  | rolledBack => exact ⟨rfl, rfl⟩

theorem manual_flow_end (tx : UnitOfWork Address Product) (err : GoError)
    (h : tx.state = TxState.opened) :
    (err = none →
      (if err = none then tx.Commit else tx).Rollback =
        ⟨tx.pending, tx.pending, TxState.committed⟩) ∧
    (err ≠ none →
      (if err = none then tx.Commit else tx).Rollback =
        ⟨tx.persisted, tx.persisted, TxState.rolledBack⟩) := by
  constructor
  · intro he
    rw [if_pos he, Commit_of_open tx h]
    exact (finished_absorbing _ (by simp)).2
  · intro he
    rw [if_neg he, Rollback_of_open tx h]

/-- C6: a unit of work ends in exactly one terminal state. An open unit of work that is
committed is committed and a later rollback leaves it so; one that is rolled back is
rolled back and a later commit leaves it so; a finished unit of work is changed by
neither. In both manual-transaction scenarios (Begin, deferred Rollback, Commit when the
last insert returned no error) the unit of work ends committed, persisting its pending
state, when the last insert returned no error, and ends rolled back, the database as it
was at Begin, otherwise. -/
theorem unit_of_work_one_terminal_state (now₁ now₂ : Time) (s : Store Address Product)
    (tx : UnitOfWork Address Product) :
    (tx.state = TxState.opened →
      tx.Commit.state = TxState.committed ∧ tx.Commit.Rollback = tx.Commit ∧
      tx.Rollback.state = TxState.rolledBack ∧ tx.Rollback.Commit = tx.Rollback) ∧
    (tx.state ≠ TxState.opened → tx.Commit = tx ∧ tx.Rollback = tx) ∧
    (((s.Begin.Create [(now₁, userLiteral "13")]).1.Create
        [(now₂, userLiteral "14")]).2.2.Error = none →
      (TestManuakTransactionSuccess now₁ now₂ s).state = TxState.committed ∧
      (TestManuakTransactionSuccess now₁ now₂ s).persisted =
        ((s.Begin.Create [(now₁, userLiteral "13")]).1.Create
          [(now₂, userLiteral "14")]).1.pending) ∧
    (((s.Begin.Create [(now₁, userLiteral "13")]).1.Create
        [(now₂, userLiteral "14")]).2.2.Error ≠ none →
      (TestManuakTransactionSuccess now₁ now₂ s).state = TxState.rolledBack ∧
      (TestManuakTransactionSuccess now₁ now₂ s).persisted = s) ∧
    (((s.Begin.Create [(now₁, userLiteral "15")]).1.Create
        [(now₂, userLiteral "14")]).2.2.Error = none →
      (TestManuakTransactionError now₁ now₂ s).state = TxState.committed ∧
      (TestManuakTransactionError now₁ now₂ s).persisted =
        ((s.Begin.Create [(now₁, userLiteral "15")]).1.Create
          [(now₂, userLiteral "14")]).1.pending) ∧
    (((s.Begin.Create [(now₁, userLiteral "15")]).1.Create
        [(now₂, userLiteral "14")]).2.2.Error ≠ none →
      (TestManuakTransactionError now₁ now₂ s).state = TxState.rolledBack ∧
      (TestManuakTransactionError now₁ now₂ s).persisted = s) := by
  refine ⟨?_, finished_absorbing tx, ?_, ?_, ?_, ?_⟩
  · intro h
    rw [Commit_of_open tx h, Rollback_of_open tx h]
    exact ⟨rfl, (finished_absorbing _ (by simp)).2, rfl, (finished_absorbing _ (by simp)).1⟩
  · intro he
    have h := (manual_flow_end ((s.Begin.Create [(now₁, userLiteral "13")]).1.Create
      [(now₂, userLiteral "14")]).1 ((s.Begin.Create [(now₁, userLiteral "13")]).1.Create
      [(now₂, userLiteral "14")]).2.2.Error rfl).1 he
    unfold TestManuakTransactionSuccess
    simp only [h]
    exact ⟨trivial, trivial⟩
  · intro he
    have h := (manual_flow_end ((s.Begin.Create [(now₁, userLiteral "13")]).1.Create
      [(now₂, userLiteral "14")]).1 ((s.Begin.Create [(now₁, userLiteral "13")]).1.Create
      [(now₂, userLiteral "14")]).2.2.Error rfl).2 he
    unfold TestManuakTransactionSuccess
    simp only [h]
    exact ⟨trivial, rfl⟩
  · intro he
    have h := (manual_flow_end ((s.Begin.Create [(now₁, userLiteral "15")]).1.Create
      [(now₂, userLiteral "14")]).1 ((s.Begin.Create [(now₁, userLiteral "15")]).1.Create
      [(now₂, userLiteral "14")]).2.2.Error rfl).1 he
    unfold TestManuakTransactionError
    simp only [h]
    exact ⟨trivial, trivial⟩
  · intro he
    have h := (manual_flow_end ((s.Begin.Create [(now₁, userLiteral "15")]).1.Create
      [(now₂, userLiteral "14")]).1 ((s.Begin.Create [(now₁, userLiteral "15")]).1.Create
      [(now₂, userLiteral "14")]).2.2.Error rfl).2 he
    unfold TestManuakTransactionError
    simp only [h]
    exact ⟨trivial, rfl⟩

end UnitOfWorkTheorems

section SoftDeleteTheorems

variable {Address Product : Type}

/-- Witness for C6: on the empty database `TestManuakTransactionSuccess` commits both
rows and stays committed after the deferred rollback; on a database that already holds
key `14`, `TestManuakTransactionError` ends rolled back with the database unchanged. -/
theorem unit_of_work_one_terminal_state_witness :
    (TestManuakTransactionSuccess ⟨2024, 12, 17, 19, 5, 1, 0⟩ ⟨2024, 12, 17, 19, 5, 2, 0⟩
      (Store.empty : Store Unit Unit)).state = TxState.committed ∧
    (TestManuakTransactionError ⟨2024, 12, 17, 19, 5, 1, 0⟩ ⟨2024, 12, 17, 19, 5, 2, 0⟩
      (⟨[userLiteral "14"], [], []⟩ : Store Unit Unit)).state = TxState.rolledBack :=
  ⟨((unit_of_work_one_terminal_state ⟨2024, 12, 17, 19, 5, 1, 0⟩ ⟨2024, 12, 17, 19, 5, 2, 0⟩
      (Store.empty : Store Unit Unit) Store.empty.Begin).2.2.1 rfl).1,
    ((unit_of_work_one_terminal_state ⟨2024, 12, 17, 19, 5, 1, 0⟩ ⟨2024, 12, 17, 19, 5, 2, 0⟩
      (⟨[userLiteral "14"], [], []⟩ : Store Unit Unit) Store.empty.Begin).2.2.2.2.2
      (by decide)).1⟩

theorem le_maxTodoID (todos : List Todo) : ∀ r ∈ todos, r.ID ≤ maxTodoID todos := by
  induction todos with
  | nil => intro r hr; cases hr
  | cons t rest ih =>
    intro r hr
    unfold maxTodoID
    rcases List.mem_cons.mp hr with h | h
    · subst h; exact le_max_left _ _
    · exact le_trans (ih r h) (le_max_right _ _)

theorem maxTodoID_nonneg (todos : List Todo) : 0 ≤ maxTodoID todos := by
  induction todos with
  | nil => exact le_refl _
  | cons t rest ih => unfold maxTodoID; exact le_trans ih (le_max_right _ _)

theorem CreateTodo_unset_key (s : Store Address Product) (todo : Todo) (h : todo.ID = 0) :
    s.CreateTodo todo =
      ({ s with todos := s.todos ++ [{ todo with ID := maxTodoID s.todos + 1 }] },
        { todo with ID := maxTodoID s.todos + 1 }, ⟨none, 1⟩) := by
  have hany : s.todos.any (fun r => r.ID == maxTodoID s.todos + 1) = false := by
    rw [List.any_eq_false]
    intro r hr
    have := le_maxTodoID s.todos r hr
    simp only [beq_iff_eq]
    omega
  unfold Store.CreateTodo
  simp only [h, if_true]
  rw [if_neg (by simp only [hany]; simp)]

theorem deleted_not_found (s : Store Address Product) (now : Time) (todo : Todo) :
    ∀ r ∈ (s.DeleteTodo now todo).1.FindTodos.1, r.ID ≠ todo.ID := by
  intro r hr
  simp only [Store.DeleteTodo, Store.FindTodos, List.mem_filter, List.mem_map] at hr
  obtain ⟨⟨r₀, _, hmap⟩, hlive⟩ := hr
  by_cases hhit : (r₀.ID == todo.ID && r₀.DeletedAt.isNone) = true
  · rw [if_pos hhit] at hmap
    subst hmap
    simp at hlive
  · rw [if_neg hhit] at hmap
    subst hmap
    intro hid
    apply hhit
    simp [hid, hlive]

theorem deleted_still_unscoped (s : Store Address Product) (now : Time) (todo : Todo) :
    ∀ r ∈ s.todos, r.ID = todo.ID →
      ∃ r' ∈ (s.DeleteTodo now todo).1.UnscopedFindTodos.1,
        r'.ID = todo.ID ∧ r'.DeletedAt ≠ none ∧ r'.UserId = r.UserId ∧
        r'.Title = r.Title ∧ r'.Description = r.Description := by
  intro r hr hid
  simp only [Store.DeleteTodo, Store.UnscopedFindTodos, List.mem_map]
  by_cases hhit : (r.ID == todo.ID && r.DeletedAt.isNone) = true
  · exact ⟨{ r with DeletedAt := some now }, ⟨r, hr, by rw [if_pos hhit]⟩, hid, by simp, rfl,
      rfl, rfl⟩
  · refine ⟨r, ⟨r, hr, by rw [if_neg hhit]⟩, hid, ?_, rfl, rfl, rfl⟩
    intro hnone
    apply hhit
    simp [hid, hnone]

theorem no_live_rows (todos : List Todo)
    (h : todos.filter (fun r => r.DeletedAt.isNone) = []) :
    ∀ r ∈ todos, r.DeletedAt.isNone = false := by
  intro r hr
  rw [List.filter_eq_nil_iff] at h
  have hr' := h r hr
  cases hd : r.DeletedAt with
  | none => rw [hd] at hr'; exact absurd rfl hr'
  | some t => rfl

theorem TestSoftDelete_eval (s : Store Address Product) (now : Time)
    (h : s.FindTodos.1 = []) :
    TestSoftDelete now s =
      ({ s with todos := s.todos ++
          [⟨maxTodoID s.todos + 1, "1", "test", "desc test", some now⟩] },
        [none, none, none], []) := by
  have hdead := no_live_rows s.todos h
  have hmap : s.todos.map (fun r =>
      if r.ID == maxTodoID s.todos + 1 && r.DeletedAt.isNone then
        { r with DeletedAt := some now } else r) = s.todos := by
    conv_rhs => rw [← List.map_id s.todos]
    apply List.map_congr_left
    intro r hr
    simp [hdead r hr]
  have hfilter : (s.todos ++
      [(⟨maxTodoID s.todos + 1, "1", "test", "desc test", some now⟩ : Todo)]).filter
      (fun r => r.DeletedAt.isNone) = [] := by
    rw [List.filter_eq_nil_iff]
    intro r hr
    rcases List.mem_append.mp hr with hr | hr
    · simp [hdead r hr]
    · rw [List.mem_singleton] at hr
      subst hr
      simp
  unfold TestSoftDelete
  simp only [CreateTodo_unset_key s ⟨0, "1", "test", "desc test", none⟩ rfl]
  simp only [Store.DeleteTodo, Store.FindTodos, List.map_append, hmap, List.map_cons,
    List.map_nil, beq_self_eq_true, Option.isNone_none, Bool.and_self, if_true, hfilter]

/-- C7: after an entity with a soft-delete marker is deleted, the default find returns
no row with its key, while the include-deleted (unscoped) find still returns, for every
row that carried the key, a row with that key and the same contents, now marked deleted.
In `TestSoftDelete`, started on a database whose default find is empty, all three
statements succeed, the final default find returns zero rows and the created row is
still stored, marked deleted at the time of the delete. -/
theorem soft_deleted_hidden_from_find (now : Time) (s : Store Address Product) (todo : Todo) :
    (∀ r ∈ (s.DeleteTodo now todo).1.FindTodos.1, r.ID ≠ todo.ID) ∧
    (∀ r ∈ s.todos, r.ID = todo.ID →
      ∃ r' ∈ (s.DeleteTodo now todo).1.UnscopedFindTodos.1,
        r'.ID = todo.ID ∧ r'.DeletedAt ≠ none ∧ r'.UserId = r.UserId ∧
        r'.Title = r.Title ∧ r'.Description = r.Description) ∧
    (s.FindTodos.1 = [] →
      (TestSoftDelete now s).2.1 = [none, none, none] ∧
      (TestSoftDelete now s).2.2.length = 0 ∧
      (⟨maxTodoID s.todos + 1, "1", "test", "desc test", some now⟩ : Todo) ∈
        (TestSoftDelete now s).1.UnscopedFindTodos.1) := by
  refine ⟨deleted_not_found s now todo, deleted_still_unscoped s now todo, ?_⟩
  intro h
  rw [TestSoftDelete_eval s now h]
  refine ⟨rfl, rfl, ?_⟩
  simp [Store.UnscopedFindTodos]

/-- Witness for C7: `TestSoftDelete` on the empty database finds zero rows. -/
theorem soft_deleted_hidden_from_find_witness :
    (TestSoftDelete ⟨2024, 12, 17, 19, 5, 1, 0⟩ (Store.empty : Store Unit Unit)).2.2.length
      = 0 :=
  ((soft_deleted_hidden_from_find ⟨2024, 12, 17, 19, 5, 1, 0⟩ (Store.empty : Store Unit Unit)
    ⟨0, "", "", "", none⟩).2.2 rfl).2.1

end SoftDeleteTheorems

section ScenarioTheorems

variable {Address Product : Type}

theorem Transaction_of_success (s : Store Address Product)
    (fc : UnitOfWork Address Product → UnitOfWork Address Product × GoError)
    (h : (fc s.Begin).2 = none) : (s.Transaction fc).2 = none := by
  unfold Store.Transaction
  rcases hfc : fc s.Begin with ⟨tx, err⟩
  rw [hfc] at h
  simp only at h
  subst h
  rfl

theorem Transaction_error (s : Store Address Product)
    (fc : UnitOfWork Address Product → UnitOfWork Address Product × GoError) :
    (s.Transaction fc).2 = (fc s.Begin).2 := by
  unfold Store.Transaction
  rcases hfc : fc s.Begin with ⟨tx, _ | e⟩ <;> rfl

/-- C8: whenever the function handed to `db.Transaction` in
`TestAssociationReplace` returns no error, the transaction returns the nil error and the
test's call of `.Error()` on it panics; when the function returns an error the test
fails. The scenario never ends with its final assertion satisfied. -/
theorem TestAssociationReplace_panics_on_success (s : Store Address Product)
    (fc : UnitOfWork Address Product → UnitOfWork Address Product × GoError) :
    ((fc s.Begin).2 = none → TestAssociationReplace s fc = Outcome.panic) ∧
    ((fc s.Begin).2 ≠ none → TestAssociationReplace s fc = Outcome.fail) ∧
    TestAssociationReplace s fc ≠ Outcome.pass := by
  unfold TestAssociationReplace
  rw [Transaction_error]
  generalize (fc s.Begin).2 = err
  cases err with
  | none => exact ⟨fun _ => rfl, fun h => absurd rfl h, by simp [GoError.Error]⟩
  | some e =>
    refine ⟨fun h => Option.noConfusion h, fun _ => ?_, ?_⟩ <;>
      simp [GoError.Error, assert.Nil.string]

/-- Evaluation for C8: with a body that returns nil on the empty database the scenario
panics. -/
theorem TestAssociationReplace_panics_on_success_witness :
    TestAssociationReplace (Store.empty : Store Unit Unit) (fun tx => (tx, none)) =
      Outcome.panic :=
  (TestAssociationReplace_panics_on_success (Store.empty : Store Unit Unit)
    (fun tx => (tx, none))).1 rfl

theorem compile_broke :
    (Condition.compile ⟨"balance =?", [Value.int 0]⟩ :
      Option (Wallet Address Product → Bool)) = some (fun w => w.Balance == 0) := by
  rfl

theorem compile_sultan :
    (Condition.compile ⟨"balance >?", [Value.int 2000000]⟩ :
      Option (Wallet Address Product → Bool)) =
      some (fun w => decide (w.Balance > 2000000)) := by
  rfl

theorem read_of_compile (engine : Condition → Except Failure (Wallet Address Product → Bool))
    (c : Condition) (q : Wallet Address Product → Bool) (hc : c.compile = some q) :
    c.read engine = .ok q := by
  unfold Condition.read
  rw [hc]

theorem readTerms_snoc (engine : Condition → Except Failure (Wallet Address Product → Bool))
    (t : Term) (q : Wallet Address Product → Bool) (ht : t.cond.read engine = .ok q) :
    ∀ terms : List Term,
      (∀ e, readTerms engine terms = .error e → readTerms engine (terms ++ [t]) = .error e) ∧
      (∀ ps, readTerms engine terms = .ok ps →
        readTerms engine (terms ++ [t]) = .ok (ps ++ [(t.call, q)])) := by
  intro terms
  induction terms with
  | nil =>
    constructor
    · intro e h; simp [readTerms] at h
    · intro ps h
      simp only [readTerms, Except.ok.injEq] at h
      subst h
      simp [readTerms, ht]
  | cons d rest ih =>
    constructor
    · intro e h
      rw [List.cons_append]
      unfold readTerms at h ⊢
      rcases hd : d.cond.read engine with e₁ | p
      · rw [hd] at h; exact h
      · rw [hd] at h
        simp only at h ⊢
        rcases hr : readTerms engine rest with e₂ | ps
        · rw [hr] at h
          rw [ih.1 e₂ hr]
          exact h
        · rw [hr] at h
          cases h
    · intro ps h
      rw [List.cons_append]
      unfold readTerms at h ⊢
      rcases hd : d.cond.read engine with e₁ | p
      · rw [hd] at h; cases h
      · rw [hd] at h
        simp only at h ⊢
        rcases hr : readTerms engine rest with e₂ | ps'
        · rw [hr] at h; cases h
        · rw [hr] at h
          rw [ih.2 ps' hr]
          simp only [Except.ok.injEq] at h
          subst h
          rfl

theorem readTerms_calls (engine : Condition → Except Failure (Wallet Address Product → Bool)) :
    ∀ (terms : List Term) (ps : List (Call × (Wallet Address Product → Bool))),
      readTerms engine terms = .ok ps → ps.map Prod.fst = terms.map Term.call := by
  intro terms
  induction terms with
  | nil =>
    intro ps h
    simp only [readTerms, Except.ok.injEq] at h
    subst h
    rfl
  | cons d rest ih =>
    intro ps h
    unfold readTerms at h
    rcases hd : d.cond.read engine with e₁ | p
    · rw [hd] at h; cases h
    · rw [hd] at h
      simp only at h
      rcases hr : readTerms engine rest with e₂ | ps'
      · rw [hr] at h; cases h
      · rw [hr] at h
        simp only [Except.ok.injEq] at h
        subst h
        simp [ih ps' hr]

theorem holdsFrom_conjunctive (w : Wallet Address Product) :
    ∀ (ps : List (Call × (Wallet Address Product → Bool))) (done cur : Bool),
      (∀ p ∈ ps, p.1 ≠ Call.Or) →
        holdsFrom done cur w ps = (done || (cur && ps.all (fun p => termHolds p w))) := by
  intro ps
  induction ps with
  | nil => intro done cur _; simp [holdsFrom]
  | cons p rest ih =>
    intro done cur h
    have hp : p.1 ≠ Call.Or := h p (List.mem_cons_self _ _)
    have hrest := ih done (cur && termHolds p w) (fun x hx => h x (List.mem_cons_of_mem _ hx))
    unfold holdsFrom
    cases hc : p.1 with
    | Or => exact absurd hc hp
    | Where => simp only [hrest, List.all_cons, Bool.and_assoc]
    | Not => simp only [hrest, List.all_cons, Bool.and_assoc]

theorem holds_conjunctive (w : Wallet Address Product)
    (ps : List (Call × (Wallet Address Product → Bool))) (h : ∀ p ∈ ps, p.1 ≠ Call.Or) :
    holds ps w = ps.all (fun p => termHolds p w) := by
  cases ps with
  | nil => rfl
  | cons p rest =>
    show holdsFrom false (termHolds p w) w rest = _
    rw [holdsFrom_conjunctive w rest false (termHolds p w)
      (fun x hx => h x (List.mem_cons_of_mem _ hx))]
    simp

theorem holds_snoc_where (w : Wallet Address Product)
    (ps : List (Call × (Wallet Address Product → Bool))) (q : Wallet Address Product → Bool)
    (h : ∀ p ∈ ps, p.1 ≠ Call.Or) :
    holds (ps ++ [(Call.Where, q)]) w = (holds ps w && q w) := by
  have h' : ∀ p ∈ ps ++ [(Call.Where, q)], p.1 ≠ Call.Or := by
    intro p hp
    rcases List.mem_append.mp hp with hp | hp
    · exact h p hp
    · rw [List.mem_singleton] at hp
      subst hp
      simp
  rw [holds_conjunctive w _ h', holds_conjunctive w ps h, List.all_append]
  simp [termHolds]

theorem Find_after_Where (engine : Condition → Except Failure (Wallet Address Product → Bool))
    (db : DB Address Product) (c : Condition) (q : Wallet Address Product → Bool)
    (hc : c.compile = some q) (hdb : ∀ t ∈ db.conds, t.call ≠ Call.Or) :
    (db.Where c.query c.args).FindWallets engine =
      ((db.FindWallets engine).1.filter q, (db.FindWallets engine).2) := by
  have hs := readTerms_snoc engine ⟨Call.Where, c⟩ q (read_of_compile engine c q hc) db.conds
  unfold DB.FindWallets DB.Where
  simp only
  rcases hp : readTerms engine db.conds with e | ps
  · rw [hs.1 e hp]
    rfl
  · rw [hs.2 ps hp]
    have hcalls := readTerms_calls engine db.conds ps hp
    have hps : ∀ p ∈ ps, p.1 ≠ Call.Or := by
      intro p hp' hor
      have hmem : p.1 ∈ ps.map Prod.fst := List.mem_map_of_mem Prod.fst hp'
      rw [hcalls, List.mem_map] at hmem
      obtain ⟨t, ht, hcall⟩ := hmem
      exact hdb t ht (hcall.trans hor)
    simp only [List.filter_filter]
    congr 1
    apply List.filter_congr
    intro w _
    rw [holds_snoc_where w ps q hps, Bool.and_comm]

end ScenarioTheorems

section ScopeTheorems

variable {Address Product : Type}

/-- C9, counterexample after a prior `.or()`: on the wallets of users
`1` (balance 1000000) and `2` (balance 5000000), with the prior conditions
`Where("balance >?", 500000).Or("balance =?", 0)`, the find through `BrokeWalletBalance`
returns both wallets although neither has balance 0, while the prior result holds no
wallet of balance 0. -/
theorem scope_after_or_not_conjoined :
    ((((((⟨[], [Wallet.mk "1" "1" 1000000 Time.zero Time.zero none,
        Wallet.mk "2" "2" 5000000 Time.zero Time.zero none], []⟩ :
      Store Unit Unit).db.Where "balance >?" [Value.int 500000]).Or "balance =?"
      [Value.int 0]).Scopes [BrokeWalletBalance]).FindWallets
      (fun _ => Except.ok (fun _ => true))).1.map Wallet.ID = ["1", "2"]) ∧
    ((((((⟨[], [Wallet.mk "1" "1" 1000000 Time.zero Time.zero none,
        Wallet.mk "2" "2" 5000000 Time.zero Time.zero none], []⟩ :
      Store Unit Unit).db.Where "balance >?" [Value.int 500000]).Or "balance =?"
      [Value.int 0]).FindWallets
      (fun _ => Except.ok (fun _ => true))).1.filter
        (fun w => w.Balance == 0)).map Wallet.ID = []) ∧
    ¬ (∀ w : Wallet Unit Unit,
      w ∈ (((((⟨[], [Wallet.mk "1" "1" 1000000 Time.zero Time.zero none,
          Wallet.mk "2" "2" 5000000 Time.zero Time.zero none], []⟩ :
        Store Unit Unit).db.Where "balance >?" [Value.int 500000]).Or "balance =?"
        [Value.int 0]).Scopes [BrokeWalletBalance]).FindWallets
        (fun _ => Except.ok (fun _ => true))).1 ↔
      w ∈ ((((⟨[], [Wallet.mk "1" "1" 1000000 Time.zero Time.zero none,
          Wallet.mk "2" "2" 5000000 Time.zero Time.zero none], []⟩ :
        Store Unit Unit).db.Where "balance >?" [Value.int 500000]).Or "balance =?"
        [Value.int 0]).FindWallets (fun _ => Except.ok (fun _ => true))).1 ∧
      w.Balance = 0) := by
  refine ⟨by decide, by decide, ?_⟩
  intro h
  have hmem : (Wallet.mk "1" "1" 1000000 Time.zero Time.zero none : Wallet Unit Unit) ∈
      (((((⟨[], [Wallet.mk "1" "1" 1000000 Time.zero Time.zero none,
          Wallet.mk "2" "2" 5000000 Time.zero Time.zero none], []⟩ :
        Store Unit Unit).db.Where "balance >?" [Value.int 500000]).Or "balance =?"
        [Value.int 0]).Scopes [BrokeWalletBalance]).FindWallets
        (fun _ => Except.ok (fun _ => true))).1 :=
    List.mem_cons_self _ _
  have hzero := ((h _).mp hmem).2
  revert hzero
  decide

/-- C9, amended: a scope adds exactly one `.where()` condition after the prior ones and
leaves the database and the prior conditions of the handle as they were. When the prior
conditions came in by `.where()` and `.not()` only (no `.or()`), whatever their texts
and whatever the engine answers to them, a find through `BrokeWalletBalance` returns
exactly the wallets of the prior result whose balance is 0 and a find through
`SultanWalletBalance` exactly those whose balance is strictly greater than 2000000 (a
balance of exactly 2000000 is excluded), with the error of the prior query. `TestScope`
runs the two scopes on the bare handle and gets the wallets of balance 0 and those of
balance above 2000000, without error. -/
theorem scope_conjoins_with_prior_where_not
    (engine : Condition → Except Failure (Wallet Address Product → Bool))
    (db : DB Address Product) :
    (db.Scopes [BrokeWalletBalance]).store = db.store ∧
    (db.Scopes [BrokeWalletBalance]).conds =
      db.conds ++ [⟨Call.Where, ⟨"balance =?", [Value.int 0]⟩⟩] ∧
    (db.Scopes [SultanWalletBalance]).store = db.store ∧
    (db.Scopes [SultanWalletBalance]).conds =
      db.conds ++ [⟨Call.Where, ⟨"balance >?", [Value.int 2000000]⟩⟩] ∧
    ((∀ t ∈ db.conds, t.call ≠ Call.Or) →
      (db.Scopes [BrokeWalletBalance]).FindWallets engine =
        ((db.FindWallets engine).1.filter (fun w => w.Balance == 0),
          (db.FindWallets engine).2) ∧
      (db.Scopes [SultanWalletBalance]).FindWallets engine =
        ((db.FindWallets engine).1.filter (fun w => decide (w.Balance > 2000000)),
          (db.FindWallets engine).2) ∧
      (∀ w, w ∈ ((db.Scopes [BrokeWalletBalance]).FindWallets engine).1 ↔
        w ∈ (db.FindWallets engine).1 ∧ w.Balance = 0) ∧
      (∀ w, w ∈ ((db.Scopes [SultanWalletBalance]).FindWallets engine).1 ↔
        w ∈ (db.FindWallets engine).1 ∧ 2000000 < w.Balance) ∧
      (∀ w, w.Balance = 2000000 →
        w ∉ ((db.Scopes [SultanWalletBalance]).FindWallets engine).1)) ∧
    TestScope engine db.store =
      ((db.store.wallets.filter (fun w => w.Balance == 0), none),
        (db.store.wallets.filter (fun w => decide (w.Balance > 2000000)), none)) := by
  refine ⟨rfl, rfl, rfl, rfl, ?_, ?_⟩
  · intro hdb
    have hb : (db.Scopes [BrokeWalletBalance]).FindWallets engine =
        ((db.FindWallets engine).1.filter (fun w => w.Balance == 0),
          (db.FindWallets engine).2) :=
      Find_after_Where engine db ⟨"balance =?", [Value.int 0]⟩ _ compile_broke hdb
    have hs : (db.Scopes [SultanWalletBalance]).FindWallets engine =
        ((db.FindWallets engine).1.filter (fun w => decide (w.Balance > 2000000)),
          (db.FindWallets engine).2) :=
      Find_after_Where engine db ⟨"balance >?", [Value.int 2000000]⟩ _ compile_sultan hdb
    refine ⟨hb, hs, ?_, ?_, ?_⟩
    · intro w
      rw [hb]
      simp [List.mem_filter]
    · intro w
      rw [hs]
      simp [List.mem_filter]
    · intro w hw
      rw [hs]
      simp [List.mem_filter, hw]
  · have hnone : ∀ t ∈ db.store.db.conds, t.call ≠ Call.Or := by
      intro t ht
      cases ht
    have hb' : (db.store.db.Scopes [BrokeWalletBalance]).FindWallets engine =
        ((db.store.db.FindWallets engine).1.filter (fun w => w.Balance == 0),
          (db.store.db.FindWallets engine).2) :=
      Find_after_Where engine db.store.db ⟨"balance =?", [Value.int 0]⟩ _ compile_broke hnone
    have hs' : (db.store.db.Scopes [SultanWalletBalance]).FindWallets engine =
        ((db.store.db.FindWallets engine).1.filter (fun w => decide (w.Balance > 2000000)),
          (db.store.db.FindWallets engine).2) :=
      Find_after_Where engine db.store.db ⟨"balance >?", [Value.int 2000000]⟩ _
        compile_sultan hnone
    unfold TestScope
    rw [hb', hs']
    simp [DB.FindWallets, Store.db, readTerms, holds]

/-- Witness for C9: with the prior conditions `Where("user_id = ?", "1")` and
`Not("balance <?", 0)`, the first answered by the engine, the wallet of user `1`
holding exactly 2000000 is not returned through `SultanWalletBalance`. -/
theorem scope_conjoins_with_prior_where_not_witness :
    (Wallet.mk "2" "1" 2000000 Time.zero Time.zero none : Wallet Unit Unit) ∉
      (((((⟨⟨[], [Wallet.mk "1" "1" 0 Time.zero Time.zero none,
          Wallet.mk "2" "1" 2000000 Time.zero Time.zero none,
          Wallet.mk "3" "1" 2000001 Time.zero Time.zero none], []⟩, []⟩ :
        DB Unit Unit).Where "user_id = ?" [Value.str "1"]).Not "balance <?"
          [Value.int 0]).Scopes [SultanWalletBalance]).FindWallets
          (fun _ => Except.ok (fun w => w.UserId == "1"))).1 :=
  (scope_conjoins_with_prior_where_not (fun _ => Except.ok (fun w => w.UserId == "1"))
    (((⟨⟨[], [Wallet.mk "1" "1" 0 Time.zero Time.zero none,
      Wallet.mk "2" "1" 2000000 Time.zero Time.zero none,
      Wallet.mk "3" "1" 2000001 Time.zero Time.zero none], []⟩, []⟩ :
    DB Unit Unit).Where "user_id = ?" [Value.str "1"]).Not "balance <?"
      [Value.int 0])).2.2.2.2.1
    (by decide) |>.2.2.2.2
    (Wallet.mk "2" "1" 2000000 Time.zero Time.zero none) rfl

/-- Witness for C10: the user of `TestHooks` and the zero user, hooked at two readings
within the same second, receive the same ID. -/
theorem BeforeCreate_ID_clock_second_only_witness :
    ((User.mk "" "Rahasia" ⟨"User 100", "", ""⟩ Time.zero Time.zero "" Wallet.zero [] [] :
      User Unit Unit).BeforeCreate ⟨2024, 12, 17, 19, 5, 1, 250⟩).1.ID =
    ((User.zero : User Unit Unit).BeforeCreate ⟨2024, 12, 17, 19, 5, 1, 999999999⟩).1.ID :=
  BeforeCreate_ID_clock_second_only ⟨2024, 12, 17, 19, 5, 1, 250⟩
    ⟨2024, 12, 17, 19, 5, 1, 999999999⟩
    (User.mk "" "Rahasia" ⟨"User 100", "", ""⟩ Time.zero Time.zero "" Wallet.zero [] [])
    User.zero rfl rfl rfl rfl rfl rfl rfl rfl

end ScopeTheorems

section FrameAndSchemaTheorems

variable {Address Product : Type}

/-- C11: for every user, with an empty ID or not, `BeforeCreate` changes no field other
than `ID`: `Password`, `Name` (first, middle and last name), `CreatedAt`, `UpdatedAt`,
`Information`, `Wallet`, `Addresses` and `LikeProducts` are after the hook what they
were before it. -/
theorem BeforeCreate_changes_ID_only (now : Time) (u : User Address Product) :
    (u.BeforeCreate now).1.Password = u.Password ∧
    (u.BeforeCreate now).1.Name = u.Name ∧
    (u.BeforeCreate now).1.Name.FirstName = u.Name.FirstName ∧
    (u.BeforeCreate now).1.Name.MiddleName = u.Name.MiddleName ∧
    (u.BeforeCreate now).1.Name.LastName = u.Name.LastName ∧
    (u.BeforeCreate now).1.CreatedAt = u.CreatedAt ∧
    (u.BeforeCreate now).1.UpdatedAt = u.UpdatedAt ∧
    (u.BeforeCreate now).1.Information = u.Information ∧
    (u.BeforeCreate now).1.Wallet = u.Wallet ∧
    (u.BeforeCreate now).1.Addresses = u.Addresses ∧
    (u.BeforeCreate now).1.LikeProducts = u.LikeProducts := by
  by_cases h : u.ID = ""
  · rw [BeforeCreate_of_empty now u h]
    cases u
    exact ⟨rfl, rfl, rfl, rfl, rfl, rfl, rfl, rfl, rfl, rfl, rfl⟩
  · rw [BeforeCreate_of_nonempty now u h]
    exact ⟨rfl, rfl, rfl, rfl, rfl, rfl, rfl, rfl, rfl, rfl, rfl⟩

/-- C12: the field-to-column mappings as the tags declare them. In each of `User`,
`UserLog`, `GuestBook` and `Wallet` the fields `CreatedAt` and `UpdatedAt` are both
tagged with the column `created_at`, so the mapping is not injective; every other pair
of persisted fields has different columns (without `UpdatedAt` the columns of each
entity are pairwise distinct). -/
theorem CreatedAt_UpdatedAt_share_column :
    columnMapping Name.fields User.fields =
      [("ID", "id"), ("Password", "password"), ("FirstName", "first_name"),
        ("MiddleName", "middle_name"), ("LastName", "last_name"),
        ("CreatedAt", "created_at"), ("UpdatedAt", "created_at")] ∧
    columnMapping [] UserLog.fields =
      [("ID", "id"), ("UserId", "user_id"), ("Action", "action"),
        ("CreatedAt", "created_at"), ("UpdatedAt", "created_at")] ∧
    columnMapping [] GuestBook.fields =
      [("ID", "id"), ("Name", "name"), ("Email", "email"), ("Message", "message"),
        ("CreatedAt", "created_at"), ("UpdatedAt", "created_at")] ∧
    columnMapping [] Wallet.fields =
      [("ID", "id"), ("UserId", "user_id"), ("Balance", "balance"),
        ("CreatedAt", "created_at"), ("UpdatedAt", "created_at")] ∧
    ¬ (columnsOf Name.fields User.fields).Nodup ∧
    ¬ (columnsOf [] UserLog.fields).Nodup ∧
    ¬ (columnsOf [] GuestBook.fields).Nodup ∧
    ¬ (columnsOf [] Wallet.fields).Nodup ∧
    (columnsOf Name.fields (User.fields.filter (fun f => f.1 != "UpdatedAt"))).Nodup ∧
    (columnsOf [] (UserLog.fields.filter (fun f => f.1 != "UpdatedAt"))).Nodup ∧
    (columnsOf [] (GuestBook.fields.filter (fun f => f.1 != "UpdatedAt"))).Nodup ∧
    (columnsOf [] (Wallet.fields.filter (fun f => f.1 != "UpdatedAt"))).Nodup := by
  refine ⟨?_, ?_, ?_, ?_, ?_, ?_, ?_, ?_, ?_, ?_, ?_, ?_⟩ <;> decide

end FrameAndSchemaTheorems

end GolangGorm
